import Mathlib

/-!
Shallow embedding of the log-classification core of the QA_fx repository
(src/services/logUtils.ts): the parseLogFile classifier, the file-name
source detector, the CSV branch of exportLogs, and the interface-metric
extractor (the latter modelled from the specification, since only its
caller is present under src/).  Strings are modelled as lists of
characters; the JavaScript builtin JSON.parse is modelled as an explicit
function parameter, and the nondeterministic identifier generator
(Date.now combined with Math.random and the line index) as an explicit
function of the line index.
-/

namespace QAfx

/-- Strings are modelled as lists of characters. -/
abbrev Str := List Char

/-- Turn a Lean string literal into the character-list model. -/
def strL (s : String) : Str := s.toList

/-- Does the pattern (first argument) occur at the head of the string? -/
def startsWithL : Str → Str → Bool
  | [], _ => true
  | _ :: _, [] => false
  | p :: ps, c :: cs => p == c && startsWithL ps cs

/-- Does the pattern occur as a contiguous substring (JavaScript includes)? -/
def containsSub (pat : Str) : Str → Bool
  | [] => startsWithL pat []
  | c :: cs => startsWithL pat (c :: cs) || containsSub pat cs

/-- Does the pattern occur at the end of the string (JavaScript endsWith)? -/
def endsWithL (pat s : Str) : Bool := startsWithL pat.reverse s.reverse

/-- ASCII lower-casing of a whole string (JavaScript toLowerCase on the
ASCII range that the classifier's patterns use). -/
def toLowerL (s : Str) : Str := s.map Char.toLower

/-- The whitespace class of JavaScript regular expressions and of
String.prototype.trim, restricted to the code points that can occur in
the classifier's inputs. -/
def jsWhitespace (c : Char) : Bool :=
  c == ' ' || c == '\t' || c == '\n' || c == '\r' ||
  c == Char.ofNat 11 || c == Char.ofNat 12 || c == Char.ofNat 160 || c == Char.ofNat 65279

/-- A line is blank when trimming it leaves nothing: every character is
whitespace (the test !line.trim() in parseLogFile). -/
def isBlank (l : Str) : Bool := l.all jsWhitespace

/-- content.split with the line separator being a newline optionally
preceded by a carriage return: the split on the pattern r-optional-n used
by parseLogFile. -/
def splitLines : Str → List Str
  | [] => [[]]
  | '\r' :: '\n' :: rest => [] :: splitLines rest
  | '\n' :: rest => [] :: splitLines rest
  | c :: rest =>
    match splitLines rest with
    | [] => [[c]]
    | l :: ls => (c :: l) :: ls

/-- Severity levels of the data model (src/types.ts, enum LogLevel). -/
inductive LogLevel
  | INFO
  | WARNING
  | ERROR
  | DEBUG
  | UNKNOWN
deriving DecidableEq

/-- Source platforms of the data model (src/types.ts, enum LogSource). -/
inductive LogSource
  | IOS
  | ANDROID
  | WECHAT
  | UNKNOWN
deriving DecidableEq

/-- File-name based source detection at the top of parseLogFile
(src/services/logUtils.ts lines 11 to 18).  The checks for ios, android
and wechat lower-case the file name first; the checks for .syslog,
logcat and miniprogram are plain case-sensitive substring tests, exactly
as in the source. -/
def detectSource (fileName : Str) : LogSource :=
  if containsSub (strL "ios") (toLowerL fileName) || containsSub (strL ".syslog") fileName then
    LogSource.IOS
  else if containsSub (strL "android") (toLowerL fileName) || containsSub (strL "logcat") fileName then
    LogSource.ANDROID
  else if containsSub (strL "wechat") (toLowerL fileName) || containsSub (strL "miniprogram") fileName then
    LogSource.WECHAT
  else
    LogSource.UNKNOWN

/-- Match of the Android tag pattern (uppercase letter, slash, any
characters, colon) starting at the head of the string.  The dot of the
regular expression does not cross a line terminator, so the colon must
occur before any carriage return or newline. -/
def androidTagAt : Str → Bool
  | c :: '/' :: rest =>
    c.isUpper && (rest.takeWhile (fun ch => !(ch == '\r' || ch == '\n'))).any (fun ch => ch == ':')
  | _ => false

/-- line.match of the Android tag pattern, as a boolean: does the pattern
match anywhere in the line (src/services/logUtils.ts line 33)? -/
def matchAndroidTag : Str → Bool
  | [] => false
  | c :: cs => androidTagAt (c :: cs) || matchAndroidTag cs

/-- Match a fixed-shape character-class template at the head of a string,
returning the matched characters. -/
def matchTemplateAt : List (Char → Bool) → Str → Option Str
  | [], _ => some []
  | _ :: _, [] => none
  | p :: ps, c :: cs => if p c then (matchTemplateAt ps cs).map (fun m => c :: m) else none

/-- Leftmost match of a fixed-shape template anywhere in the string (the
semantics of line.match for a regular expression with no quantifiers of
variable width). -/
def findTemplate (t : List (Char → Bool)) : Str → Option Str
  | [] => matchTemplateAt t []
  | c :: cs =>
    match matchTemplateAt t (c :: cs) with
    | some m => some m
    | none => findTemplate t cs

/-- Character-class of a single decimal digit. -/
def pd : Char → Bool := Char.isDigit

/-- Character-class of one fixed character. -/
def pc (a : Char) : Char → Bool := fun c => c == a

/-- The Android timestamp pattern: two digits, dash, two digits, one
whitespace, two digits, colon, two digits, colon, two digits, dot, three
digits (src/services/logUtils.ts line 42). -/
def androidTimeTmpl : List (Char → Bool) :=
  [pd, pd, pc '-', pd, pd, jsWhitespace, pd, pd, pc ':', pd, pd, pc ':', pd, pd, pc '.', pd, pd, pd]

/-- The trailing clock part of the iOS prefix pattern: two digits, colon,
two digits, colon, two digits. -/
def clockTmpl : List (Char → Bool) :=
  [pd, pd, pc ':', pd, pd, pc ':', pd, pd]

/-- Is the character an ASCII letter (the class A-Za-z)? -/
def isLetterAZ (c : Char) : Bool := c.isUpper || c.isLower

/-- Match of the iOS prefix pattern (three ASCII letters, one or more
whitespace, one or more digits, one whitespace, a clock) starting at the
head of the string, returning the matched text.  The whitespace and digit
runs are maximal, which agrees with the greedy backtracking semantics of
the pattern because the character classes involved are disjoint. -/
def matchIosAt : Str → Option Str
  | a :: b :: c :: rest =>
    if isLetterAZ a && isLetterAZ b && isLetterAZ c then
      let wsRun := rest.takeWhile jsWhitespace
      let r1 := rest.drop wsRun.length
      if wsRun.isEmpty then none
      else
        let dRun := r1.takeWhile Char.isDigit
        let r2 := r1.drop dRun.length
        if dRun.isEmpty then none
        else
          match r2 with
          | w :: r3 =>
            if jsWhitespace w then
              match matchTemplateAt clockTmpl r3 with
              | some m => some (a :: b :: c :: (wsRun ++ dRun ++ w :: m))
              | none => none
            else none
          | [] => none
    else none
  | _ => none

/-- Leftmost match of the iOS prefix pattern anywhere in the line
(line.match in src/services/logUtils.ts lines 50 to 52). -/
def findIos : Str → Option Str
  | [] => none
  | c :: cs =>
    match matchIosAt (c :: cs) with
    | some m => some m
    | none => findIos cs

/-- The view of a parsed JSON object that the mini-program branch of
parseLogFile reads: the message, msg, level, time and timestamp fields,
each possibly absent, with string values (the only value shape the
classifier is written for).  Field order: message, msg, level, time,
timestamp. -/
structure JsonObj where
  message : Option Str
  msg : Option Str
  level : Option Str
  time : Option Str
  timestamp : Option Str
deriving DecidableEq

/-- JavaScript truthiness of a possibly-absent string value: present and
non-empty. -/
def truthy : Option Str → Bool
  | some s => !s.isEmpty
  | none => false

/-- JavaScript a-or-else-b on a possibly-absent string value: the value
when it is truthy, the fallback otherwise. -/
def jsOrS : Option Str → Str → Str
  | some s, b => if s.isEmpty then b else s
  | none, b => b

/-- The mutable locals of one iteration of the classification loop of
parseLogFile, in their state after a pattern group has run: source,
level, timestamp and message. -/
structure ClsState where
  source : LogSource
  level : LogLevel
  timestamp : Str
  message : Str
deriving DecidableEq

/-- The locals as initialised at the top of the loop body
(src/services/logUtils.ts lines 23 to 27): level UNKNOWN, empty
timestamp, message equal to the line, source equal to the file-name
prior. -/
def initState (detected : LogSource) (line : Str) : ClsState :=
  ⟨detected, LogLevel.UNKNOWN, [], line⟩

/-- Level assignment of the Android group (src/services/logUtils.ts
lines 35 to 38). -/
def androidLevel (line : Str) : LogLevel :=
  if containsSub (strL " E/") line || startsWithL (strL "E/") line then LogLevel.ERROR
  else if containsSub (strL " W/") line || startsWithL (strL "W/") line then LogLevel.WARNING
  else if containsSub (strL " D/") line || startsWithL (strL "D/") line then LogLevel.DEBUG
  else LogLevel.INFO

/-- The Android pattern group (src/services/logUtils.ts lines 32 to 44):
runs only when the current source is ANDROID or UNKNOWN; on a structural
match it sets the source to ANDROID, the level from the tag letter, and
the timestamp from the Android timestamp pattern when present. -/
def androidStep (line : Str) (st : ClsState) : ClsState :=
  if (st.source = LogSource.ANDROID ∨ st.source = LogSource.UNKNOWN) ∧
      (matchAndroidTag line = true ∨ containsSub (strL "AndroidRuntime") line = true) then
    ⟨LogSource.ANDROID, androidLevel line,
      (match findTemplate androidTimeTmpl line with
        | some m => m
        | none => st.timestamp),
      st.message⟩
  else st

/-- Level assignment of the iOS group by case-insensitive keyword search
(src/services/logUtils.ts lines 54 to 57): the error and warning
keywords are the angle-bracketed forms and the colon forms preceded by a
space. -/
def iosLevel (line : Str) : LogLevel :=
  if containsSub (strL "<error>") (toLowerL line) || containsSub (strL " error:") (toLowerL line) then
    LogLevel.ERROR
  else if containsSub (strL "<warning>") (toLowerL line) || containsSub (strL " warning:") (toLowerL line) then
    LogLevel.WARNING
  else if containsSub (strL "<debug>") (toLowerL line) then LogLevel.DEBUG
  else LogLevel.INFO

/-- The iOS pattern group (src/services/logUtils.ts lines 48 to 58):
runs only when the current source is IOS, or UNKNOWN with no timestamp
assigned yet; on a structural match it sets the source to IOS, the
timestamp to the matched prefix, and the level from the keyword
search. -/
def iosStep (line : Str) (st : ClsState) : ClsState :=
  if st.source = LogSource.IOS ∨ (st.source = LogSource.UNKNOWN ∧ st.timestamp = []) then
    match findIos line with
    | some m => ⟨LogSource.IOS, iosLevel line, m, st.message⟩
    | none => st
  else st

/-- Level extraction from a parsed JSON object (src/services/logUtils.ts
lines 69 to 74): only applied when the level field is truthy; error maps
to ERROR, warn to WARNING, anything else to INFO; otherwise the level is
left unchanged. -/
def wechatJsonLevel (json : JsonObj) (lv : LogLevel) : LogLevel :=
  if truthy json.level then
    if toLowerL (json.level.getD []) = strL "error" then LogLevel.ERROR
    else if toLowerL (json.level.getD []) = strL "warn" then LogLevel.WARNING
    else LogLevel.INFO
  else lv

/-- Does the line start with a bracketed INFO, ERR or WARN tag
(src/services/logUtils.ts line 87)? -/
def bracketTag (line : Str) : Bool :=
  startsWithL (strL "[INFO]") line || startsWithL (strL "[ERR]") line ||
    startsWithL (strL "[WARN]") line

/-- Level assignment of the bracketed-tag branch (src/services/logUtils.ts
lines 89 to 91). -/
def bracketLevel (line : Str) : LogLevel :=
  if containsSub (strL "[ERR") line then LogLevel.ERROR
  else if containsSub (strL "[WARN") line then LogLevel.WARNING
  else LogLevel.INFO

/-- The mini-program pattern group (src/services/logUtils.ts lines 63 to
93): runs only when the current source is WECHAT, or UNKNOWN with no
timestamp yet.  A line enclosed in braces sets the source to WECHAT and
then attempts a JSON parse: on success the message, level and timestamp
are taken from the object fields with JavaScript or-else fallbacks; a
parse failure is swallowed, leaving the other locals unchanged.
Otherwise a bracketed tag sets the source to WECHAT and the level from
the tag. -/
def wechatStep (jp : Str → Option JsonObj) (line : Str) (st : ClsState) : ClsState :=
  if st.source = LogSource.WECHAT ∨ (st.source = LogSource.UNKNOWN ∧ st.timestamp = []) then
    if startsWithL (strL "\x7b") line = true ∧ endsWithL (strL "\x7d") line = true then
      match jp line with
      | some json =>
        ⟨LogSource.WECHAT, wechatJsonLevel json st.level,
          jsOrS json.time (jsOrS json.timestamp []),
          jsOrS json.message (jsOrS json.msg line)⟩
      | none => ⟨LogSource.WECHAT, st.level, st.timestamp, st.message⟩
    else if bracketTag line = true then
      ⟨LogSource.WECHAT, bracketLevel line, st.timestamp, st.message⟩
    else st
  else st

/-- Fallback keyword detection (src/services/logUtils.ts lines 96 to
102): case-insensitive search of the whole line; always yields a
concrete level. -/
def fallbackLevel (line : Str) : LogLevel :=
  if containsSub (strL "error") (toLowerL line) || containsSub (strL "exception") (toLowerL line) ||
      containsSub (strL "fail") (toLowerL line) then LogLevel.ERROR
  else if containsSub (strL "warn") (toLowerL line) then LogLevel.WARNING
  else if containsSub (strL "debug") (toLowerL line) then LogLevel.DEBUG
  else LogLevel.INFO

/-- The level after the fallback pass: the fallback keyword level when
the cascade left the level UNKNOWN, the cascade's level otherwise. -/
def resolveLevel (line : Str) (lv : LogLevel) : LogLevel :=
  if lv = LogLevel.UNKNOWN then fallbackLevel line else lv

/-- The fallback pass as a state transformer: only the level changes. -/
def fallbackStep (line : Str) (st : ClsState) : ClsState :=
  ⟨st.source, resolveLevel line st.level, st.timestamp, st.message⟩

/-- Classification of one line: the ordered cascade Android, iOS,
mini-program, fallback over the loop locals (src/services/logUtils.ts
lines 21 to 102). -/
def classifyLine (jp : Str → Option JsonObj) (detected : LogSource) (line : Str) : ClsState :=
  fallbackStep line (wechatStep jp line (iosStep line (androidStep line (initState detected line))))

/-- One structured record of the data model (src/types.ts, interface
named LogEntry).  Field order: id, timestamp, level, source, message,
tag, raw. -/
structure LogEntry where
  id : Str
  timestamp : Str
  level : LogLevel
  source : LogSource
  message : Str
  tag : Str
  raw : Str
deriving DecidableEq

/-- Record assembly at the end of the loop body (src/services/logUtils.ts
lines 96 to 104): the id from the line index, the timestamp defaulting to
N/A when falsy, the source mapped through an identity conditional, the
empty tag, and the raw field set to the unmodified line. -/
def assemble (mkId : Nat → Str) (idx : Nat) (line : Str) (st : ClsState) : LogEntry :=
  ⟨mkId idx,
    (if st.timestamp = [] then strL "N/A" else st.timestamp),
    st.level,
    (if st.source = LogSource.UNKNOWN then LogSource.UNKNOWN else st.source),
    st.message,
    [],
    line⟩

/-- parseLogFile (src/services/logUtils.ts lines 6 to 108): split the
document into lines, fix the file-name prior, then classify every
non-blank line in order, keeping the original line index for the
identifier.  The JSON.parse builtin is the parameter jp; the identifier
generator (Date.now, index, Math.random) is the parameter mkId. -/
def parseLogFile (jp : Str → Option JsonObj) (mkId : Nat → Str)
    (content fileName : Str) : List LogEntry :=
  ((splitLines content).enum.filter (fun p => !isBlank p.2)).map
    (fun p => assemble mkId p.1 p.2 (classifyLine jp (detectSource fileName) p.2))

/-- Rendering of a severity level as the string of its enum value
(src/types.ts, enum LogLevel). -/
def levelStr : LogLevel → Str
  | LogLevel.INFO => strL "INFO"
  | LogLevel.WARNING => strL "WARNING"
  | LogLevel.ERROR => strL "ERROR"
  | LogLevel.DEBUG => strL "DEBUG"
  | LogLevel.UNKNOWN => strL "UNKNOWN"

/-- Rendering of a source as the string of its enum value (src/types.ts,
enum LogSource). -/
def sourceStr : LogSource → Str
  | LogSource.IOS => strL "iOS"
  | LogSource.ANDROID => strL "Android"
  | LogSource.WECHAT => strL "WeChat"
  | LogSource.UNKNOWN => strL "Unknown"

/-- The double-quote character. -/
def dq : Char := Char.ofNat 34

/-- message.replace of every double quote by two double quotes
(src/services/logUtils.ts line 118). -/
def escapeQuotes : Str → Str
  | [] => []
  | c :: cs => if c == dq then dq :: dq :: escapeQuotes cs else c :: escapeQuotes cs

/-- Wrap a field in double quotes. -/
def quoteF (s : Str) : Str := dq :: (s ++ [dq])

/-- One CSV row of exportLogs (src/services/logUtils.ts lines 117 to
119): each of the four fields is wrapped in double quotes; only the
message has its embedded double quotes doubled. -/
def csvRow (l : LogEntry) : Str :=
  quoteF l.timestamp ++ ',' :: quoteF (sourceStr l.source) ++ ',' :: quoteF (levelStr l.level)
    ++ ',' :: quoteF (escapeQuotes l.message)

/-- Array.join with a newline separator. -/
def joinNL : List Str → Str
  | [] => []
  | [s] => s
  | s :: t :: rest => s ++ '\n' :: joinNL (t :: rest)

/-- The CSV content produced by the csv branch of exportLogs
(src/services/logUtils.ts lines 116 to 119): the fixed header line
followed by one row per record. -/
def exportLogsCsv (logs : List LogEntry) : Str :=
  strL "Timestamp,Source,Level,Message\n" ++ joinNL (logs.map csvRow)

/-- A CSV row as the specification's escaping contract reads: every
field wrapped in double quotes with its embedded double quotes doubled.
This definition follows the specification's words, for comparison with
csvRow, which follows the source. -/
def csvRowAllEscaped (l : LogEntry) : Str :=
  quoteF (escapeQuotes l.timestamp) ++ ',' :: quoteF (escapeQuotes (sourceStr l.source))
    ++ ',' :: quoteF (escapeQuotes (levelStr l.level)) ++ ',' :: quoteF (escapeQuotes l.message)

/-- One extracted HTTP call record of the data model (src/types.ts in
the specification's shape: id, method, url, status as text, duration in
milliseconds). -/
structure InterfaceMetric where
  id : Str
  method : Str
  url : Str
  status : Str
  duration : Nat
deriving DecidableEq

/-- The closed set of HTTP verbs of the interface extractor. -/
def httpVerbs : List Str :=
  [strL "GET", strL "POST", strL "PUT", strL "DELETE", strL "PATCH"]

/-- The closed set of status codes of the interface extractor. -/
def statusCodes : List Str :=
  [strL "200", strL "201", strL "400", strL "401", strL "403", strL "404",
    strL "500", strL "502"]

/-- The first HTTP verb of the closed set matching at the head of the
string, with the rest of the string after it. -/
def verbAt (s : Str) : Option (Str × Str) :=
  (httpVerbs.find? (fun v => startsWithL v s)).map (fun v => (v, s.drop v.length))

/-- Leftmost occurrence of an HTTP verb of the closed set. -/
def scanVerb : Str → Option (Str × Str)
  | [] => none
  | c :: cs =>
    match verbAt (c :: cs) with
    | some r => some r
    | none => scanVerb cs

/-- After the verb: at least one whitespace, then the URL token, captured
up to, and excluding, a question mark or whitespace; the remainder of the
line, query string included, is kept for the later status search. -/
def urlTok (s : Str) : Option (Str × Str) :=
  match s with
  | [] => none
  | c :: cs =>
    if jsWhitespace c then
      let rest := (c :: cs).dropWhile jsWhitespace
      let u := rest.takeWhile (fun ch => !(jsWhitespace ch || ch == '?'))
      if u.isEmpty then none else some (u, rest.drop u.length)
    else none

/-- The first status code of the closed set matching at the head of the
string. -/
def statusAt (s : Str) : Option Str := statusCodes.find? (fun v => startsWithL v s)

/-- Leftmost occurrence of a status code of the closed set, with the rest
of the string after it. -/
def scanStatus : Str → Option (Str × Str)
  | [] => none
  | c :: cs =>
    match statusAt (c :: cs) with
    | some v => some (v, (c :: cs).drop v.length)
    | none => scanStatus cs

/-- Value of a string of decimal digits. -/
def digitsToNat (d : Str) : Nat := d.foldl (fun acc c => 10 * acc + (c.toNat - 48)) 0

/-- A maximal digit run followed by the ms suffix, starting at the head
of the string. -/
def durAt (s : Str) : Option Nat :=
  if (s.takeWhile Char.isDigit).isEmpty then none
  else if startsWithL (strL "ms") (s.drop (s.takeWhile Char.isDigit).length) then
    some (digitsToNat (s.takeWhile Char.isDigit))
  else none

/-- Leftmost digit run carrying the ms suffix. -/
def scanDur : Str → Option Nat
  | [] => none
  | c :: cs =>
    match durAt (c :: cs) with
    | some n => some n
    | none => scanDur cs

/-- Modelled from the spec: the per-message pattern of the interface
metric extractor, whose implementation (extractInterfaceMetrics in
src/services/logUtils.ts) is absent from the sources, only its caller
being present.  Following section 4.4 of the specification: an HTTP verb
of the closed set, followed by a URL token stopping at whitespace or a
question mark, followed later in the line by a status code of the closed
set, followed by a numeric duration with an ms suffix; the first match
only; a partial match yields nothing. -/
def matchInterface (msg : Str) : Option (Str × Str × Str × Nat) :=
  (scanVerb msg).bind (fun vr =>
    (urlTok vr.2).bind (fun ur =>
      (scanStatus ur.2).bind (fun sr =>
        (scanDur sr.2).map (fun n => (vr.1, ur.1, sr.1, n)))))

/-- Assembly of one interface metric from a record index and a pattern
match: the identifier is derived from the record's position in the
sequence. -/
def mkMetric (idx : Nat) (r : Str × Str × Str × Nat) : InterfaceMetric :=
  ⟨Nat.toDigits 10 idx, r.1, r.2.1, r.2.2.1, r.2.2.2⟩

/-- Modelled from the spec: extractInterfaceMetrics, section 4.4 and
section 6 of the specification — a read-only fan-out over the record
sequence emitting zero or one interface metric per record, from the
record's message. -/
def extractInterfaceMetrics (records : List LogEntry) : List InterfaceMetric :=
  records.enum.filterMap (fun p => (matchInterface p.2.message).map (mkMetric p.1))

/-- The non-identifier fields of a record: timestamp, level, source,
message and raw. -/
def coreFields (e : LogEntry) : Str × LogLevel × LogSource × Str × Str :=
  (e.timestamp, e.level, e.source, e.message, e.raw)

/-- The document of the C10 timestamp demonstration: a mini-program line
whose time field is present but empty. -/
def demoJsonLine : Str := strL "\x7b\"level\":\"error\",\"msg\":\"timeout\",\"time\":\"\"\x7d"

/-- The JSON.parse model for the C10 demonstration: it parses exactly
the demonstration line, into an object with msg timeout, level error and
an empty time field. -/
def jpDemo : Str → Option JsonObj :=
  fun s => if s = demoJsonLine then
    some ⟨none, some (strL "timeout"), some (strL "error"), some [], none⟩
  else none

/-- A concrete record carrying the given message, for the interface
extraction demonstrations. -/
def demoRec (msg : String) : LogEntry :=
  ⟨strL "1", strL "N/A", LogLevel.INFO, LogSource.UNKNOWN, strL msg, [], strL msg⟩

/-- Filtering an enumerated list on the element and projecting the
element back recovers the plain filter. -/
theorem enumFrom_filter_map_snd {α : Type} (q : α → Bool) :
    ∀ (l : List α) (n : Nat),
      ((l.enumFrom n).filter (fun p => q p.2)).map Prod.snd = l.filter q := by
  intro l
  induction l with
  | nil => intro n; rfl
  | cons a t ih =>
    intro n
    simp only [List.enumFrom_cons, List.filter_cons]
    cases h : q a with
    | true => simp [h, ih]
    | false => simp [h, ih]

/-- Two maps of the same list are pointwise related when the composed
functions are. -/
theorem forall2_map_map {α β γ : Type} (R : β → γ → Prop) (F : α → β) (G : α → γ) :
    ∀ (l : List α), (∀ p ∈ l, R (F p) (G p)) → List.Forall₂ R (l.map F) (l.map G) := by
  intro l
  induction l with
  | nil => intro _; exact List.Forall₂.nil
  | cons a t ih =>
    intro h
    exact List.Forall₂.cons (h a (List.mem_cons_self a t))
      (ih (fun p hp => h p (List.mem_cons_of_mem a hp)))

/-- The fallback keyword pass always yields a concrete level. -/
theorem fallbackLevel_ne (line : Str) : fallbackLevel line ≠ LogLevel.UNKNOWN := by
  unfold fallbackLevel
  split_ifs <;> decide

/-- The level after the fallback pass is never UNKNOWN. -/
theorem resolveLevel_ne (line : Str) (lv : LogLevel) :
    resolveLevel line lv ≠ LogLevel.UNKNOWN := by
  unfold resolveLevel
  split_ifs with h
  · exact fallbackLevel_ne line
  · exact h

/-- Classification always leaves the loop with a concrete level. -/
theorem classifyLine_level_ne (jp : Str → Option JsonObj) (d : LogSource) (l : Str) :
    (classifyLine jp d l).level ≠ LogLevel.UNKNOWN :=
  resolveLevel_ne l (wechatStep jp l (iosStep l (androidStep l (initState d l)))).level

/-- The assembled record carries the classified level unchanged. -/
theorem assemble_level (mkId : Nat → Str) (idx : Nat) (line : Str) (st : ClsState) :
    (assemble mkId idx line st).level = st.level := rfl

/-- The assembled record's raw field is the unmodified line. -/
theorem assemble_raw (mkId : Nat → Str) (idx : Nat) (line : Str) (st : ClsState) :
    (assemble mkId idx line st).raw = line := rfl

/-- The assembled record's timestamp is never the empty string: a falsy
classified timestamp is replaced by the literal N/A. -/
theorem assemble_timestamp_ne (mkId : Nat → Str) (idx : Nat) (line : Str) (st : ClsState) :
    (assemble mkId idx line st).timestamp ≠ [] := by
  show (if st.timestamp = [] then strL "N/A" else st.timestamp) ≠ []
  split_ifs with h
  · decide
  · exact h

/-- C1: parseLogFile returns exactly one record per non-blank line of
the document, in the original line order — the two sequences are
pointwise related, each record's raw field being its line — and every
returned record has a level different from UNKNOWN; blank lines produce
no record. -/
theorem parse_record_per_nonblank_line (jp : Str → Option JsonObj) (mkId : Nat → Str)
    (content fileName : Str) :
    List.Forall₂ (fun e l => e.raw = l ∧ e.level ≠ LogLevel.UNKNOWN)
      (parseLogFile jp mkId content fileName)
      ((splitLines content).filter (fun l => !isBlank l)) := by
  rw [← enumFrom_filter_map_snd (fun x => !isBlank x) (splitLines content) 0]
  exact forall2_map_map _ _ _ _
    (fun p _ => ⟨rfl, classifyLine_level_ne jp (detectSource fileName) p.2⟩)

/-- C1 witness: the relation of the totality theorem instantiated on a
concrete two-line document with a blank line between. -/
theorem parse_record_per_nonblank_line_w :
    List.Forall₂ (fun (e : LogEntry) l => e.raw = l ∧ e.level ≠ LogLevel.UNKNOWN)
      (parseLogFile (fun _ => none) (fun _ => []) (strL "error one\n \nok") [])
      ((splitLines (strL "error one\n \nok")).filter (fun l => !isBlank l)) :=
  parse_record_per_nonblank_line (fun _ => none) (fun _ => []) (strL "error one\n \nok") []

/-- C4: the raw fields of the records returned by parseLogFile are
exactly the non-blank lines of the document, byte for byte and in order:
classification never alters the raw line. -/
theorem parse_raw_roundtrip (jp : Str → Option JsonObj) (mkId : Nat → Str)
    (content fileName : Str) :
    (parseLogFile jp mkId content fileName).map LogEntry.raw
      = (splitLines content).filter (fun l => !isBlank l) := by
  unfold parseLogFile
  rw [List.map_map]
  exact enumFrom_filter_map_snd (fun x => !isBlank x) (splitLines content) 0

/-- C7: parseLogFile is deterministic up to identifiers — two runs on
the same content and file-name hint, differing only in the identifier
generator, agree on every non-identifier field at every position. -/
theorem parse_deterministic_up_to_id (jp : Str → Option JsonObj) (mkId₁ mkId₂ : Nat → Str)
    (content fileName : Str) :
    (parseLogFile jp mkId₁ content fileName).map coreFields
      = (parseLogFile jp mkId₂ content fileName).map coreFields := by
  unfold parseLogFile
  rw [List.map_map, List.map_map]
  congr 1

/-- C10: the timestamp of a record returned by parseLogFile is never the
empty string, and a JSON mini-program line whose time field is present
but empty yields the literal N/A. -/
theorem timestamp_never_empty :
    (∀ (jp : Str → Option JsonObj) (mkId : Nat → Str) (content fileName : Str),
      ∀ e ∈ parseLogFile jp mkId content fileName, e.timestamp ≠ []) ∧
    (parseLogFile jpDemo (fun _ => []) demoJsonLine (strL "miniprogram.log")).map
        LogEntry.timestamp = [strL "N/A"] := by
  constructor
  · intro jp mkId content fileName e he
    obtain ⟨p, _, rfl⟩ := List.mem_map.1 he
    exact assemble_timestamp_ne mkId p.1 p.2 _
  · decide

/-- C10 witness: the non-emptiness conjunct applied to the single record
parsed from a concrete one-line document. -/
theorem timestamp_never_empty_w :
    (⟨[], strL "N/A", LogLevel.INFO, LogSource.UNKNOWN, strL "ok", [], strL "ok"⟩
      : LogEntry).timestamp ≠ [] :=
  timestamp_never_empty.1 (fun _ => none) (fun _ => []) (strL "ok") [] _ (by decide)

/-- The iOS group leaves the state alone when the source is neither IOS
nor UNKNOWN. -/
theorem iosStep_skip (line : Str) (st : ClsState)
    (h1 : st.source ≠ LogSource.IOS) (h2 : st.source ≠ LogSource.UNKNOWN) :
    iosStep line st = st := by
  unfold iosStep
  rw [if_neg (fun hc => hc.elim h1 (fun hh => h2 hh.1))]

/-- The mini-program group leaves the state alone when the source is
neither WECHAT nor UNKNOWN. -/
theorem wechatStep_skip (jp : Str → Option JsonObj) (line : Str) (st : ClsState)
    (h1 : st.source ≠ LogSource.WECHAT) (h2 : st.source ≠ LogSource.UNKNOWN) :
    wechatStep jp line st = st := by
  unfold wechatStep
  rw [if_neg (fun hc => hc.elim h1 (fun hh => h2 hh.1))]

/-- The fallback pass never changes the source. -/
theorem fallbackStep_source (line : Str) (st : ClsState) :
    (fallbackStep line st).source = st.source := rfl

/-- When the prior is ANDROID or UNKNOWN and the line matches the
Android structural pattern, the classified source is ANDROID. -/
theorem classify_source_android (jp : Str → Option JsonObj) (d : LogSource) (l : Str)
    (h1 : d = LogSource.ANDROID ∨ d = LogSource.UNKNOWN)
    (h2 : matchAndroidTag l = true ∨ containsSub (strL "AndroidRuntime") l = true) :
    (classifyLine jp d l).source = LogSource.ANDROID := by
  have ha : (androidStep l (initState d l)).source = LogSource.ANDROID := by
    unfold androidStep
    rw [if_pos ⟨h1, h2⟩]
  unfold classifyLine
  rw [iosStep_skip l _ (by rw [ha]; decide) (by rw [ha]; decide),
    wechatStep_skip jp l _ (by rw [ha]; decide) (by rw [ha]; decide),
    fallbackStep_source, ha]

/-- C2 counterexample: the line E/Tag: boom matches the Android
structural pattern, yet under the IOS file-name prior (ios.log) its
record keeps source IOS — the Android group is skipped entirely, so the
prior is not merely advisory. -/
theorem android_prior_gate_cex :
    (parseLogFile (fun _ => none) (fun _ => []) (strL "E/Tag: boom") (strL "ios.log")).map
        LogEntry.source = [LogSource.IOS]
    ∧ matchAndroidTag (strL "E/Tag: boom") = true
    ∧ detectSource (strL "ios.log") = LogSource.IOS := by decide

/-- C2 amended: the Android structural match forces source ANDROID on a
line's record only when the file-name prior is ANDROID or UNKNOWN; for
the IOS and WECHAT priors the Android group is not consulted. -/
theorem android_match_forces_android (jp : Str → Option JsonObj) (mkId : Nat → Str)
    (content fileName l : Str) (e : LogEntry)
    (hp : detectSource fileName = LogSource.ANDROID ∨ detectSource fileName = LogSource.UNKNOWN)
    (hm : matchAndroidTag l = true ∨ containsSub (strL "AndroidRuntime") l = true)
    (he : e ∈ parseLogFile jp mkId content fileName) (hr : e.raw = l) :
    e.source = LogSource.ANDROID := by
  obtain ⟨p, _, rfl⟩ := List.mem_map.1 he
  have hl : p.2 = l := hr
  subst hl
  have hs := classify_source_android jp (detectSource fileName) p.2 hp hm
  show (if (classifyLine jp (detectSource fileName) p.2).source = LogSource.UNKNOWN
      then LogSource.UNKNOWN else (classifyLine jp (detectSource fileName) p.2).source)
    = LogSource.ANDROID
  rw [hs]
  decide

/-- C2 witness: under the empty file-name hint (UNKNOWN prior), the
record of the Android-matching line E/Tag: boom carries source
ANDROID. -/
theorem android_match_forces_android_w :
    (⟨[], strL "N/A", LogLevel.ERROR, LogSource.ANDROID, strL "E/Tag: boom", [],
        strL "E/Tag: boom"⟩ : LogEntry).source = LogSource.ANDROID :=
  android_match_forces_android (fun _ => none) (fun _ => []) (strL "E/Tag: boom") []
    (strL "E/Tag: boom") _ (Or.inr (by decide)) (Or.inl (by decide)) (by decide) (by decide)

/-- C3 counterexample: a name containing logcat only in upper case is
classified UNKNOWN (the logcat test is case-sensitive in the source),
and a name containing .syslog other than as a suffix, with no other
marker, is classified IOS (the .syslog test is a substring test, not a
suffix test) — both contradict the claim's reading. -/
theorem detectSource_claim_cex :
    detectSource (strL "LOGCAT.txt") = LogSource.UNKNOWN
    ∧ containsSub (strL "logcat") (toLowerL (strL "LOGCAT.txt")) = true
    ∧ detectSource (strL "app.syslog.bak") = LogSource.IOS
    ∧ endsWithL (strL ".syslog") (toLowerL (strL "app.syslog.bak")) = false
    ∧ containsSub (strL "ios") (toLowerL (strL "app.syslog.bak")) = false
    ∧ containsSub (strL "android") (toLowerL (strL "app.syslog.bak")) = false
    ∧ containsSub (strL "logcat") (toLowerL (strL "app.syslog.bak")) = false
    ∧ containsSub (strL "wechat") (toLowerL (strL "app.syslog.bak")) = false
    ∧ containsSub (strL "miniprogram") (toLowerL (strL "app.syslog.bak")) = false := by decide

/-- C3 amended: the detector returns exactly one of the four sources, in
priority order IOS, ANDROID, WECHAT, UNKNOWN; the ios, android and
wechat markers are matched case-insensitively, while .syslog, logcat and
miniprogram are matched case-sensitively, each as a substring anywhere
in the name (.syslog need not be a suffix). -/
theorem detectSource_characterization (f : Str) :
    (detectSource f = LogSource.IOS ↔
      (containsSub (strL "ios") (toLowerL f) || containsSub (strL ".syslog") f) = true)
    ∧ (detectSource f = LogSource.ANDROID ↔
      ((containsSub (strL "ios") (toLowerL f) || containsSub (strL ".syslog") f) = false
        ∧ (containsSub (strL "android") (toLowerL f) || containsSub (strL "logcat") f) = true))
    ∧ (detectSource f = LogSource.WECHAT ↔
      ((containsSub (strL "ios") (toLowerL f) || containsSub (strL ".syslog") f) = false
        ∧ (containsSub (strL "android") (toLowerL f) || containsSub (strL "logcat") f) = false
        ∧ (containsSub (strL "wechat") (toLowerL f) || containsSub (strL "miniprogram") f) = true))
    ∧ (detectSource f = LogSource.UNKNOWN ↔
      ((containsSub (strL "ios") (toLowerL f) || containsSub (strL ".syslog") f) = false
        ∧ (containsSub (strL "android") (toLowerL f) || containsSub (strL "logcat") f) = false
        ∧ (containsSub (strL "wechat") (toLowerL f) || containsSub (strL "miniprogram") f) = false)) := by
  cases hios : (containsSub (strL "ios") (toLowerL f) || containsSub (strL ".syslog") f) <;>
    cases hand : (containsSub (strL "android") (toLowerL f) || containsSub (strL "logcat") f) <;>
      cases hwc : (containsSub (strL "wechat") (toLowerL f) || containsSub (strL "miniprogram") f) <;>
        simp [detectSource, hios, hand, hwc]

/-- C3 witness: the IOS characterization applied to a concrete ios
name. -/
theorem detectSource_characterization_w :
    detectSource (strL "ios.log") = LogSource.IOS :=
  (detectSource_characterization (strL "ios.log")).1.mpr (by decide)

/-- C5 counterexample: a line matching the iOS structural pattern and
containing the bare keyword error (no angle brackets, no colon directly
after it) is classified INFO, not ERROR: the source searches for the
angle-bracketed forms and the space-colon forms only. -/
theorem ios_bare_error_cex :
    (parseLogFile (fun _ => none) (fun _ => [])
        (strL "Oct 12 10:00:00 iPhone app saw an error in sync")
        (strL "device.syslog")).map (fun e => (e.level, e.source))
      = [(LogLevel.INFO, LogSource.IOS)]
    ∧ containsSub (strL "error") (toLowerL (strL "Oct 12 10:00:00 iPhone app saw an error in sync"))
        = true
    ∧ findIos (strL "Oct 12 10:00:00 iPhone app saw an error in sync")
        = some (strL "Oct 12 10:00:00") := by decide

/-- C5 amended: for a line on which the iOS structural group fires, the
level is ERROR exactly when the lower-cased line contains the substring
angle-error-angle or space-error-colon; WARNING for the analogous
warning forms; DEBUG for angle-debug-angle; INFO otherwise — bare
keywords without those delimiters do not count. -/
theorem ios_level_cascade (jp : Str → Option JsonObj) (d : LogSource) (l m : Str)
    (hg : (androidStep l (initState d l)).source = LogSource.IOS ∨
      ((androidStep l (initState d l)).source = LogSource.UNKNOWN ∧
        (androidStep l (initState d l)).timestamp = []))
    (hm : findIos l = some m) :
    (classifyLine jp d l).level =
      (if containsSub (strL "<error>") (toLowerL l) || containsSub (strL " error:") (toLowerL l)
        then LogLevel.ERROR
        else if containsSub (strL "<warning>") (toLowerL l) || containsSub (strL " warning:") (toLowerL l)
          then LogLevel.WARNING
          else if containsSub (strL "<debug>") (toLowerL l) then LogLevel.DEBUG
          else LogLevel.INFO) := by
  have hi : iosStep l (androidStep l (initState d l))
      = ⟨LogSource.IOS, iosLevel l, m, (androidStep l (initState d l)).message⟩ := by
    unfold iosStep
    rw [if_pos hg, hm]
  unfold classifyLine
  rw [hi, wechatStep_skip jp l _ (by simp) (by simp)]
  show resolveLevel l (iosLevel l) = _
  have hne : iosLevel l ≠ LogLevel.UNKNOWN := by
    unfold iosLevel
    split_ifs <;> decide
  rw [resolveLevel, if_neg hne]
  rfl

/-- C5 witness: the cascade applied to a concrete iOS line carrying an
angle-bracketed Error tag yields ERROR. -/
theorem ios_level_cascade_w :
    (classifyLine (fun _ => none) LogSource.UNKNOWN
        (strL "Oct 27 10:00:00 iPhone app <Error>: boom")).level = LogLevel.ERROR := by
  rw [ios_level_cascade (fun _ => none) LogSource.UNKNOWN
    (strL "Oct 27 10:00:00 iPhone app <Error>: boom") (strL "Oct 27 10:00:00")
    (Or.inr ⟨by decide, by decide⟩) (by decide)]
  decide

/-- C6 counterexample: a line enclosed in braces that is not valid JSON
but matches the Android structural pattern gets its level from the
Android group (ERROR here), not from the fallback keyword pass (which
would give INFO) — the claim does not hold for every malformed JSON
line. -/
theorem json_fallback_cex :
    (parseLogFile (fun _ => none) (fun _ => []) (strL "\x7b E/x: ok\x7d") []).map LogEntry.level
      = [LogLevel.ERROR]
    ∧ fallbackLevel (strL "\x7b E/x: ok\x7d") = LogLevel.INFO
    ∧ startsWithL (strL "\x7b") (strL "\x7b E/x: ok\x7d") = true
    ∧ endsWithL (strL "\x7d") (strL "\x7b E/x: ok\x7d") = true := by decide

/-- C6 amended: a brace-enclosed line whose JSON parse fails is
recovered silently — provided the Android and iOS groups assigned no
level to it, its record's level is exactly the fallback keyword level
(error, exception or fail to ERROR, warn to WARNING, debug to DEBUG,
INFO otherwise); no error is surfaced, classification being total. -/
theorem json_parse_failure_fallback (jp : Str → Option JsonObj) (d : LogSource) (l : Str)
    (h1 : startsWithL (strL "\x7b") l = true) (h2 : endsWithL (strL "\x7d") l = true)
    (h3 : jp l = none)
    (h4 : (iosStep l (androidStep l (initState d l))).level = LogLevel.UNKNOWN) :
    (classifyLine jp d l).level = fallbackLevel l := by
  have hw : (wechatStep jp l (iosStep l (androidStep l (initState d l)))).level
      = LogLevel.UNKNOWN := by
    unfold wechatStep
    split_ifs with hg hbr hbt
    · rw [h3]
      exact h4
    · exact absurd ⟨h1, h2⟩ hbr
    · exact absurd ⟨h1, h2⟩ hbr
    · exact h4
  show resolveLevel l (wechatStep jp l (iosStep l (androidStep l (initState d l)))).level = _
  rw [hw, resolveLevel, if_pos rfl]

/-- C6 witness: a malformed brace line with no structural match resolves
to the fallback keyword level. -/
theorem json_parse_failure_fallback_w :
    (classifyLine (fun _ => none) LogSource.UNKNOWN (strL "\x7bnothing here\x7d")).level
      = fallbackLevel (strL "\x7bnothing here\x7d") :=
  json_parse_failure_fallback (fun _ => none) LogSource.UNKNOWN (strL "\x7bnothing here\x7d")
    (by decide) (by decide) rfl (by decide)

/-- A successful status scan only ever returns a code of the closed
set. -/
theorem scanStatus_mem : ∀ (s : Str) (r : Str × Str), scanStatus s = some r → r.1 ∈ statusCodes := by
  intro s
  induction s with
  | nil => intro r h; cases h
  | cons c cs ih =>
    intro r h
    unfold scanStatus at h
    cases hs : statusAt (c :: cs) with
    | some v =>
      rw [hs] at h
      cases h
      exact List.mem_of_find?_eq_some hs
    | none =>
      rw [hs] at h
      exact ih r h

/-- A successful interface-pattern match carries a status of the closed
set. -/
theorem matchInterface_status (msg : Str) (r : Str × Str × Str × Nat)
    (h : matchInterface msg = some r) : r.2.2.1 ∈ statusCodes := by
  unfold matchInterface at h
  obtain ⟨vr, _, h⟩ := Option.bind_eq_some.1 h
  obtain ⟨ur, _, h⟩ := Option.bind_eq_some.1 h
  obtain ⟨sr, hs, h⟩ := Option.bind_eq_some.1 h
  obtain ⟨n, _, rfl⟩ := Option.map_eq_some'.1 h
  exact scanStatus_mem _ _ hs

/-- The extractor emits exactly one metric per record whose message
matches the combined pattern, and none for the others. -/
theorem extract_length_eq :
    ∀ (l : List LogEntry) (n : Nat),
      ((l.enumFrom n).filterMap (fun p => (matchInterface p.2.message).map (mkMetric p.1))).length
        = (l.filter (fun e => (matchInterface e.message).isSome)).length := by
  intro l
  induction l with
  | nil => intro n; rfl
  | cons a t ih =>
    intro n
    simp only [List.enumFrom_cons, List.filterMap_cons, List.filter_cons]
    cases h : matchInterface a.message with
    | some r => simp [h, ih]
    | none => simp [h, ih]

/-- C8: the interface extractor emits at most one metric per record —
exactly one for each record whose message matches the combined pattern
of verb, URL token, closed-set status code and ms duration, in order —
and every emitted status belongs to the closed set; on the
specification's examples, the status-200 message yields the single
metric GET, /api/v1/user, 200, 45, and the status-999 message (outside
the closed set) yields none. -/
theorem extractInterfaceMetrics_contract :
    (∀ (records : List LogEntry) (m : InterfaceMetric),
      m ∈ extractInterfaceMetrics records → m.status ∈ statusCodes)
    ∧ (∀ records : List LogEntry, (extractInterfaceMetrics records).length
        = (records.filter (fun e => (matchInterface e.message).isSome)).length)
    ∧ ((extractInterfaceMetrics [demoRec "GET /api/v1/user?x=1 status:200 took:45ms"]).map
          (fun m => (m.method, m.url, m.status, m.duration))
        = [(strL "GET", strL "/api/v1/user", strL "200", 45)])
    ∧ extractInterfaceMetrics [demoRec "GET /api/v1/user status:999 took:45ms"] = [] := by
  refine ⟨?_, ?_, by decide, by decide⟩
  · intro records m hm
    obtain ⟨p, _, hp⟩ := List.mem_filterMap.1 hm
    obtain ⟨r, hr, rfl⟩ := Option.map_eq_some'.1 hp
    exact matchInterface_status _ _ hr
  · intro records
    exact extract_length_eq records 0

/-- C8 witness: the closed-set conjunct applied to the metric extracted
from the specification's status-200 example. -/
theorem extractInterfaceMetrics_contract_w :
    (⟨strL "0", strL "GET", strL "/api/v1/user", strL "200", 45⟩ : InterfaceMetric).status
      ∈ statusCodes :=
  extractInterfaceMetrics_contract.1 [demoRec "GET /api/v1/user?x=1 status:200 took:45ms"] _
    (by decide)

/-- Escaping is the identity on a string containing no double quote. -/
theorem escapeQuotes_id : ∀ s : Str, containsSub [dq] s = false → escapeQuotes s = s := by
  intro s
  induction s with
  | nil => intro _; rfl
  | cons c cs ih =>
    intro h
    rw [containsSub, Bool.or_eq_false_iff] at h
    have hc : (c == dq) = false := by
      rw [startsWithL] at h
      have := h.1
      simp only [startsWithL, Bool.and_true] at this
      exact beq_eq_false_iff_ne.mpr (Ne.symm (beq_eq_false_iff_ne.mp this))
    rw [escapeQuotes, if_neg (by simp [hc]), ih h.2]

/-- The source renderings contain no double quote, so escaping them is
the identity. -/
theorem escapeQuotes_sourceStr (s : LogSource) : escapeQuotes (sourceStr s) = sourceStr s := by
  cases s <;> decide

/-- The level renderings contain no double quote, so escaping them is
the identity. -/
theorem escapeQuotes_levelStr (lv : LogLevel) : escapeQuotes (levelStr lv) = levelStr lv := by
  cases lv <;> decide

/-- C9 counterexample: a record whose timestamp contains a double quote
is exported with that quote left undoubled — the produced CSV differs
from the one in which every field is escaped by doubling embedded
quotes. -/
theorem csv_escape_cex :
    containsSub [dq]
        (⟨[], strL "12\"00", LogLevel.INFO, LogSource.UNKNOWN, strL "m", [], []⟩
          : LogEntry).timestamp = true
    ∧ csvRow (⟨[], strL "12\"00", LogLevel.INFO, LogSource.UNKNOWN, strL "m", [], []⟩ : LogEntry)
        ≠ csvRowAllEscaped
            (⟨[], strL "12\"00", LogLevel.INFO, LogSource.UNKNOWN, strL "m", [], []⟩ : LogEntry)
    ∧ exportLogsCsv [(⟨[], strL "12\"00", LogLevel.INFO, LogSource.UNKNOWN, strL "m", [], []⟩
          : LogEntry)]
        ≠ strL "Timestamp,Source,Level,Message\n"
            ++ csvRowAllEscaped
                (⟨[], strL "12\"00", LogLevel.INFO, LogSource.UNKNOWN, strL "m", [], []⟩
                  : LogEntry) := by decide

/-- C9 amended: every exported field is wrapped in double quotes, but
only the message field has its embedded quotes doubled; since the source
and level renderings never contain a quote, the exported row agrees with
the fully-escaped form exactly when the record's timestamp contains no
double quote. -/
theorem csv_escape_message_only (l : LogEntry)
    (h : containsSub [dq] l.timestamp = false) :
    csvRow l = csvRowAllEscaped l
    ∧ csvRow l
      = quoteF l.timestamp ++ ',' :: quoteF (sourceStr l.source) ++ ',' :: quoteF (levelStr l.level)
          ++ ',' :: quoteF (escapeQuotes l.message) := by
  constructor
  · unfold csvRow csvRowAllEscaped
    rw [escapeQuotes_id l.timestamp h, escapeQuotes_sourceStr, escapeQuotes_levelStr]
  · rfl

/-- C9 witness: the escaping agreement on a concrete record whose
message, but not timestamp, contains a double quote. -/
theorem csv_escape_message_only_w :
    csvRow (⟨[], strL "N/A", LogLevel.INFO, LogSource.UNKNOWN, strL "a\"b", [], []⟩ : LogEntry)
      = csvRowAllEscaped
          (⟨[], strL "N/A", LogLevel.INFO, LogSource.UNKNOWN, strL "a\"b", [], []⟩ : LogEntry) :=
  (csv_escape_message_only
    (⟨[], strL "N/A", LogLevel.INFO, LogSource.UNKNOWN, strL "a\"b", [], []⟩ : LogEntry)
    (by decide)).1

end QAfx
